import Mathlib

/-!
Verification development for the orthocyclic coil-winder firmware.

The Python sources are embedded shallowly:

* `windingcalculator.py` : `compute_layer_steps`, `winding_plan` (rational
  arithmetic stands in for Python floats; Python `int()` / `round()` /
  floor division are modelled exactly, including the `ZeroDivisionError`
  raised by `//` with a zero divisor).
* `wind_layer.py` : the encoder interrupt handler, the speed-control tick,
  the traversal-synchronizer loop body, and the cleanup trace of
  `wind_first_layer`.
* `wire-guide_motor.py` (`StepperMotor28BYJ48`) : the command queue and
  the queue executors.
* `winder_homeposition.py` : the homing routine.
* `nema17.py` : `NEMA17Stepper.step_motor`.
-/

namespace Winder

/-- Python `int(q)` on a float/rational value: truncation toward zero. -/
def pyTrunc (q : ℚ) : ℤ :=
  if 0 ≤ q then ⌊q⌋ else ⌈q⌉

/-- Python `round(q)` (MicroPython rounds halves to the even neighbour,
like CPython 3). -/
def pyRound (q : ℚ) : ℤ :=
  if q - ⌊q⌋ = 1 / 2 then (if ⌊q⌋ % 2 = 0 then ⌊q⌋ else ⌊q⌋ + 1) else round q

/-- Errors a Python expression in the modelled code can raise. -/
inductive PyErr where
  | zeroDivision
  deriving DecidableEq, Repr

/-- Python floor division `a // b` on floats: `ZeroDivisionError` when the
divisor is zero, otherwise the floor of the exact quotient. -/
def pyFloorDiv (a b : ℚ) : Except PyErr ℤ :=
  if b = 0 then .error .zeroDivision else .ok ⌊a / b⌋

end Winder

namespace Winder.Calc

/-! Source file `src/micropython/picow/windingcalculator.py`. -/

/-- Function `compute_layer_steps(spool_width_mm, wire_diameter_mm)`:
`STEPS_PER_REV = 200`, `LEAD_MM = 1.25`;
`steps_per_turn = 200 * (d / 1.25)`;
`turns_per_layer = int(spool_width_mm // wire_diameter_mm)`;
odd/even layer step counts from `round(turns * steps_per_turn)`. -/
def compute_layer_steps (spool_width_mm wire_diameter_mm : ℚ) :
    Except PyErr (ℤ × ℤ × ℚ) := do
  let steps_per_turn : ℚ := 200 * (wire_diameter_mm / (5 / 4))
  let turns_per_layer ← pyFloorDiv spool_width_mm wire_diameter_mm
  let odd_turns := turns_per_layer + 1
  let even_turns := turns_per_layer
  let odd_steps := pyRound ((odd_turns : ℚ) * steps_per_turn)
  let even_steps := pyRound ((even_turns : ℚ) * steps_per_turn)
  return (odd_steps, even_steps, steps_per_turn)

/-- One emitted layer: `(layer_num, turns, steps)`. -/
abbrev Layer := ℕ × ℤ × ℤ

/-- The `while remaining > 0` loop of `winding_plan`, with explicit fuel;
`none` means the fuel bound was hit (the Python loop would still be
running).  Each iteration recomputes `int(spool_width_mm //
wire_diameter_mm)` exactly as the source does; the divisor is nonzero on
every path that reaches the loop, so the floor division cannot raise
here. -/
def windingPlanLoop (spool_width_mm wire_diameter_mm : ℚ)
    (odd_steps even_steps : ℤ) :
    ℕ → ℤ → ℕ → Option (List Layer)
  | 0, remaining, _ =>
      if remaining ≤ 0 then some [] else none
  | fuel + 1, remaining, layer_num =>
      if remaining ≤ 0 then some []
      else
        let turns : ℤ :=
          if layer_num % 2 = 1 then ⌊spool_width_mm / wire_diameter_mm⌋ + 1
          else ⌊spool_width_mm / wire_diameter_mm⌋
        let steps : ℤ := if layer_num % 2 = 1 then odd_steps else even_steps
        (windingPlanLoop spool_width_mm wire_diameter_mm odd_steps even_steps
            fuel (remaining - turns) (layer_num + 1)).map
          (fun rest => (layer_num, turns, steps) :: rest)

/-- Function `winding_plan(total_turns, spool_width_mm, wire_diameter_mm)`.
`.error` models a raised Python exception; `.ok none` models a loop that
does not finish within the (sufficient for all positive geometry) fuel
bound `2 * total_turns + 2`. -/
def winding_plan (total_turns : ℤ) (spool_width_mm wire_diameter_mm : ℚ) :
    Except PyErr (Option (List Layer)) := do
  let (odd_steps, even_steps, _steps_per_turn) ←
    compute_layer_steps spool_width_mm wire_diameter_mm
  return windingPlanLoop spool_width_mm wire_diameter_mm odd_steps even_steps
    (2 * total_turns.toNat + 2) total_turns 1

/-- Total turns over a plan's layers. -/
def sumTurns (layers : List Layer) : ℤ :=
  (layers.map (fun l => l.2.1)).sum

end Winder.Calc

namespace Winder.WindLayer

/-! Source file `src/micropython/picow/wind_layer.py`. -/

/-- Constant `MAX_DUTY` (also the motor-OFF duty level of the active-low BJT gate). -/
def MAX_DUTY : ℤ := 65535

/-- Constant `MOTOR_DUTY_START`. -/
def MOTOR_DUTY_START : ℤ := 61397

/-- Constant `ENCODER_DEBOUNCE_MS`. -/
def ENCODER_DEBOUNCE_MS : ℤ := 3

/-- Constant `ENCODER_ACTIVE_LEVEL` (the sensor reads 0 when the encoder gap is
blocked). -/
def ENCODER_ACTIVE_LEVEL : ℕ := 0

/-- The encoder state mutated by `encoder_irq` (the nonlocal variables of
`wind_first_layer` the handler touches). -/
structure EncSt where
  slotCount : ℕ
  lastIrqMs : ℤ
  lastSlotMs : ℤ
  filteredIntervalMs : ℤ
  inGap : Bool
  stopRequested : Bool
  deriving DecidableEq, Repr

/-- The accepted-slot branch of `encoder_irq` (lines 209-220): entered on
a debounce-accepted edge at the active level while not already in the gap.
Smooths the inter-slot interval (`//` is Python floor division), counts
the slot, and latches the stop request at the target. -/
def acceptSlot (targetSlots : ℕ) (s1 : EncSt) (nowMs : ℤ) : EncSt :=
  let slotIntervalMs := nowMs - s1.lastSlotMs
  let s2 := {s1 with inGap := true, lastSlotMs := nowMs}
  let s3 :=
    if 0 < slotIntervalMs then
      if s2.filteredIntervalMs ≤ 0 then
        {s2 with filteredIntervalMs := slotIntervalMs}
      else
        {s2 with filteredIntervalMs :=
          Int.fdiv (s2.filteredIntervalMs * 3 + slotIntervalMs) 4}
    else s2
  let s4 := {s3 with slotCount := s3.slotCount + 1}
  if targetSlots ≤ s4.slotCount then {s4 with stopRequested := true}
  else s4

/-- Handler `encoder_irq(pin)` (wind_layer.py lines 195-222): one interrupt edge at
time `nowMs` with sensor level `sensorValue`.  `ticks_diff` is modelled as
integer subtraction. -/
def encoder_irq (targetSlots : ℕ) (s : EncSt) (nowMs : ℤ) (sensorValue : ℕ) :
    EncSt :=
  if nowMs - s.lastIrqMs < ENCODER_DEBOUNCE_MS then s
  else
    let s1 := {s with lastIrqMs := nowMs}
    if sensorValue = ENCODER_ACTIVE_LEVEL then
      if s1.inGap = false then acceptSlot targetSlots s1 nowMs
      else s1
    else {s1 with inGap := false}

/-- Function `clamp_duty_value(duty_value)` = `max(0, min(MAX_DUTY, int(duty_value)))`
(the argument is already an integer at every call site). -/
def clamp_duty_value (duty : ℤ) : ℤ :=
  max 0 (min MAX_DUTY duty)

/-- One speed-control tick of the `while not stop_requested` loop
(wind_layer.py lines 309-317): measured cpm from the slot delta, a
proportional error correction with Python `int()` truncation, and the
clamp. -/
def speedControlTick (targetCpm kp : ℚ) (slotsPerRev : ℕ)
    (duty slotDelta elapsedMs : ℤ) : ℤ :=
  let measured_cps : ℚ := ((slotDelta : ℚ) * 1000) / ((elapsedMs : ℚ) * (slotsPerRev : ℚ))
  let measured_cpm : ℚ := measured_cps * 60
  let speed_error_cpm : ℚ := targetCpm - measured_cpm
  clamp_duty_value (duty - pyTrunc (speed_error_cpm * kp))

/-- Modelled from the spec's words, for comparison with `speedControlTick`:
the spec says the duty update subtracts `round(error * Kp)`. -/
def speedControlTickSpecRound (targetCpm kp : ℚ) (slotsPerRev : ℕ)
    (duty slotDelta elapsedMs : ℤ) : ℤ :=
  let measured_cpm : ℚ :=
    ((slotDelta : ℚ) * 1000 * 60) / ((elapsedMs : ℚ) * (slotsPerRev : ℚ))
  let speed_error_cpm : ℚ := targetCpm - measured_cpm
  clamp_duty_value (duty - round (speed_error_cpm * kp))

/-- What one pass of the `drive_traversal_from_encoder` loop body observes
of its environment: the ISR-owned encoder counters, the `running` flag,
and how many of the (at most 4) candidate pulses the deadline accumulator
lets through. -/
structure TravObs where
  slotCount : ℕ
  running : Bool
  filteredIntervalMs : ℤ
  elapsedSinceSlotMs : ℤ
  dueBudget : ℕ

/-- One iteration of the traversal control loop (wind_layer.py lines
232-278) acting on `traversal_steps_moved`: fractional extrapolation of
encoder progress (capped at 0.98), the proportional step target (Python
`int()`, capped at the layer's step budget), and the batched emission of
at most 4 due pulses. -/
def traversalIter (targetSlots firstLayerSteps : ℕ) (o : TravObs)
    (stepsMoved : ℕ) : ℕ :=
  let effective : ℚ :=
    (o.slotCount : ℚ) +
      (if o.running = true ∧ o.slotCount < targetSlots ∧
          0 < o.filteredIntervalMs ∧ 0 < o.elapsedSinceSlotMs then
        min ((o.elapsedSinceSlotMs : ℚ) / (o.filteredIntervalMs : ℚ)) (98 / 100)
      else 0)
  let proportional : ℤ :=
    pyTrunc (effective * (firstLayerSteps : ℚ) / (targetSlots : ℚ))
  let capped : ℤ :=
    if (firstLayerSteps : ℤ) < proportional then (firstLayerSteps : ℤ)
    else proportional
  let stepDeficit : ℤ := capped - (stepsMoved : ℤ)
  if stepDeficit ≤ 0 then stepsMoved
  else stepsMoved + min stepDeficit.toNat (min 4 o.dueBudget)

/-- The per-pulse interval of the same loop body (lines 253-261): derived
from the smoothed slot interval and clamped to
`[STEPPER_MIN_INTERVAL_US, STEPPER_MAX_INTERVAL_US]`.  It shapes timing
only, not the step count. -/
def stepIntervalUs (filteredIntervalMs : ℤ) (stepsPerEncoderSlot : ℚ) : ℤ :=
  let raw : ℤ :=
    if 0 < filteredIntervalMs then
      pyTrunc (((filteredIntervalMs : ℚ) * 1000) / stepsPerEncoderSlot)
    else 2 * 1000
  if raw < 500 then 500 else if 8000 < raw then 8000 else raw

/-- The fallback blocking move of the `finally` block (wind_layer.py lines
346-351): any still-owed steps are issued directly when no fault and no
interrupt occurred. -/
def traversalFallback (firstLayerSteps stepsMoved : ℕ)
    (interrupted excPending : Bool) : ℕ :=
  let remaining : ℤ := (firstLayerSteps : ℤ) - (stepsMoved : ℤ)
  if 0 < remaining ∧ excPending = false ∧ interrupted = false then
    stepsMoved + remaining.toNat
  else stepsMoved

/-- How `wind_first_layer` can leave its control loop. -/
inductive PassOutcome where
  | normal      -- `stop_requested` observed, no fault
  | cancelled   -- KeyboardInterrupt / CancelledError in the control loop
  | travFault   -- the traversal task completed with an exception
  deriving DecidableEq, Repr

/-- Externally visible actions of `wind_first_layer` on the two motors. -/
inductive DevAction where
  | setDuty (v : ℤ)            -- motor_pwm.duty_u16(v)
  | setStepperEnabled (b : Bool)
  | stepPulses (n : ℕ)         -- the fallback stepper.step_motor call
  | setGatePin (v : ℕ)         -- Pin(BJT_GATE_PIN, Pin.OUT).value(v)
  | irqDetach                  -- encoder_pin.irq(handler=None)
  | raiseExc                   -- re-raise of the pending exception
  deriving DecidableEq, Repr

/-- The motor-facing state the actions act on. -/
structure SpindleDev where
  duty : ℤ
  stepperEnabled : Bool
  gate : ℕ

/-- Effect of one action on the device state (`raiseExc` touches no pin). -/
def applyAction (d : SpindleDev) : DevAction → SpindleDev
  | .setDuty v => {d with duty := v}
  | .setStepperEnabled b => {d with stepperEnabled := b}
  | .setGatePin v => {d with gate := v}
  | .stepPulses _ => d
  | .irqDetach => d
  | .raiseExc => d

/-- The device actions of `wind_first_layer` (lines 289-357) before any
re-raise: the try-body duty writes (`tickDuties` abstracts the
speed-control loop's clamped updates), the except branch on cancellation,
and the unconditional `finally` block with catch-up and fallback. -/
def windCleanupCore (o : PassOutcome) (tickDuties : List ℤ)
    (stepsMoved firstLayerSteps : ℕ) : List DevAction :=
  ([DevAction.setDuty (clamp_duty_value MOTOR_DUTY_START)] ++
      tickDuties.map (fun v => DevAction.setDuty (clamp_duty_value v)) ++
      (if o = PassOutcome.cancelled then [DevAction.setDuty MAX_DUTY] else []))
    ++
  ([DevAction.irqDetach, DevAction.setDuty MAX_DUTY] ++
      (if 0 < firstLayerSteps - stepsMoved ∧ o = PassOutcome.normal then
        [DevAction.setStepperEnabled true,
         DevAction.stepPulses (firstLayerSteps - stepsMoved),
         DevAction.setStepperEnabled false]
      else []) ++
      [DevAction.setDuty MAX_DUTY, DevAction.setGatePin 1,
       DevAction.setStepperEnabled false])

/-- Full action trace of `wind_first_layer`: the pending exception (a
cancellation or a traversal-task fault) leaves the function only after the
whole cleanup sequence. -/
def wind_first_layer_trace (o : PassOutcome) (tickDuties : List ℤ)
    (stepsMoved firstLayerSteps : ℕ) : List DevAction :=
  windCleanupCore o tickDuties stepsMoved firstLayerSteps ++
    (if o = PassOutcome.normal then [] else [DevAction.raiseExc])

/-- A sample loop observation for concrete instantiations. -/
def sampleObs : TravObs :=
  {slotCount := 3, running := true, filteredIntervalMs := 120,
   elapsedSinceSlotMs := 40, dueBudget := 2}

/-- A sample encoder state for concrete instantiations. -/
def sampleEnc : EncSt :=
  {slotCount := 0, lastIrqMs := 0, lastSlotMs := 0, filteredIntervalMs := 0,
   inGap := false, stopRequested := false}

end Winder.WindLayer

namespace Winder.WireGuide

/-! Source file `src/micropython/esp32s2/wire-guide_motor.py`
(`StepperMotor28BYJ48`).  The file `src/stepper_motor.py` carries an
identical `queue_step` (capacity 100, reject on full) and queue operations
over the same bounded deque.  -/

/-- One queued command dict `{'type': 'step', 'steps', 'direction',
'delay'}`; the only command kind produced is `'step'`. -/
structure Cmd where
  steps : ℤ
  direction : ℤ
  delay : Option ℚ
  deriving DecidableEq

/-- Coil state: `some p` means the four pins hold `FULL_STEP_SEQUENCE[p]`
(energized); `none` means `release()` zeroed all four pins. -/
abbrev Coils := Option ℕ

/-- The pulse loop of `step()` (lines 79-82): set the pins for the current
phase, then advance the phase by `direction` modulo 8. -/
def runPulses (direction : ℤ) : ℕ → ℕ × Coils → ℕ × Coils
  | 0, st => st
  | n + 1, (cur, _) =>
      runPulses direction n ((((cur : ℤ) + direction) % 8).toNat, some cur)

/-- Executor-visible motor state. -/
structure MotorSt where
  queue : List Cmd
  totalSteps : ℕ
  currentStep : ℕ
  coils : Coils
  isExecuting : Bool

/-- Method `release()`: de-energize all four coils. -/
def release (m : MotorSt) : MotorSt :=
  {m with coils := none}

/-- Method `step(steps, direction, delay, release_after=False)` as invoked by the
executors: `abs(steps)` pulses, then `total_steps += abs(steps)` once. -/
def stepRun (m : MotorSt) (steps direction : ℤ) : MotorSt :=
  let n := steps.natAbs
  let st := runPulses direction n (m.currentStep, m.coils)
  {m with currentStep := st.1, coils := st.2, totalSteps := m.totalSteps + n}

/-- The `while self.command_queue` drain loop of `execute_all_queued`
(lines 168-187): pop the oldest command and run it without releasing. -/
def drainLoop : List Cmd → MotorSt → MotorSt
  | [], m => m
  | c :: rest, m => drainLoop rest (stepRun {m with queue := rest} c.steps c.direction)

/-- Method `execute_all_queued()` (lines 154-196).  `graceArrivals1` are commands
another context appends between the drain and the first emptiness check;
`graceArrivals2` those appended during the 0.05 s grace sleep.  The `Bool`
result records whether `release()` was called. -/
def execute_all_queued (m : MotorSt) (graceArrivals1 graceArrivals2 : List Cmd) :
    MotorSt × Bool :=
  if m.queue = [] then (m, false)
  else
    let m1 := drainLoop m.queue {m with isExecuting := true}
    let m2 := {m1 with isExecuting := false}
    let m3 := {m2 with queue := m2.queue ++ graceArrivals1}
    if m3.queue = [] then
      let m4 := {m3 with queue := m3.queue ++ graceArrivals2}
      if m4.queue = [] then (release m4, true) else (m4, false)
    else (m3, false)

/-- Sum of the magnitudes of the step counts of a command list. -/
def sumMagnitudes (l : List Cmd) : ℕ :=
  (l.map (fun c => c.steps.natAbs)).sum

/-- Method `queue_step(steps, direction, delay)` (lines 96-117 of
wire-guide_motor.py, lines 143-164 of stepper_motor.py): reject when the
queue already holds 100 commands, else append. -/
def queue_step (q : List Cmd) (c : Cmd) : Bool × List Cmd :=
  if 100 ≤ q.length then (false, q) else (true, q ++ [c])

/-- The operations a caller can interleave on the command queue. -/
inductive QueueOp where
  | enqueue (c : Cmd)  -- queue_step
  | executeOne         -- execute_queue pops the oldest command
  | executeAll         -- execute_all_queued drains the queue
  | clearAll           -- clear_queue

/-- Effect of each operation on the queue contents. -/
def applyQueueOp (q : List Cmd) : QueueOp → List Cmd
  | .enqueue c => (queue_step q c).2
  | .executeOne => q.drop 1
  | .executeAll => []
  | .clearAll => []

/-- A sample command for concrete instantiations. -/
def sampleCmd : Cmd := ⟨512, 1, none⟩

end Winder.WireGuide

namespace Winder.Nema17

/-! Source file `src/micropython/picow/nema17.py` (`NEMA17Stepper.step_motor`). -/

/-- Method `step_motor(steps, delay_ms)` (lines 44-66), abstracted to the number
of step pulses it emits: a disabled driver raises before any pulse; a
non-positive count returns without pulsing; otherwise the for loop emits
exactly `steps` rising edges. -/
def step_motor (enabled : Bool) (steps : ℤ) : Except String ℕ :=
  if enabled = false then .error "Motor is not enabled"
  else if steps ≤ 0 then .ok 0
  else .ok steps.toNat

end Winder.Nema17

namespace Winder.Homing

/-! Source file `src/micropython/picow/winder_homeposition.py`
(`home_traversal_guide`).  Sensor reads are an oracle indexed by read
count (true means `value() == 0`, the active level); an operator interrupt
is injected as a cancellation raised at the start of a chosen
`stepper.step_motor` call.  -/

/-- Constant `HOMING_MAX_STEPS`. -/
def HOMING_MAX_STEPS : ℕ := 20000

/-- Constant `HOMING_CHUNK_STEPS`. -/
def HOMING_CHUNK_STEPS : ℕ := 25

/-- Constant `HOMING_BACKOFF_STEPS`. -/
def HOMING_BACKOFF_STEPS : ℕ := 200

/-- Environment of one homing run. -/
structure Env where
  sensorActive : ℕ → Bool
  cancelAt : Option ℕ

/-- How a homing run can fail. -/
inductive HomErr where
  | timeout        -- RuntimeError: inside sensor not reached (line 81)
  | unrecoverable  -- RuntimeError: unable to refine home position (line 138)
  | cancelled      -- operator interrupt during a step_motor await
  | motorDisabled  -- NEMA17Stepper.step_motor raised: driver not enabled
  deriving DecidableEq, Repr

/-- Mutable state threaded through the run. -/
structure St where
  reads : ℕ
  stepCalls : ℕ
  enabled : Bool
  direction : ℤ

/-- One `ir_sensor_inside.value()` read. -/
def readSensor (env : Env) (s : St) : Bool × St :=
  (env.sensorActive s.reads, {s with reads := s.reads + 1})

/-- One `await stepper.step_motor(...)` call: raises if the driver is
disabled, or if the injected cancellation fires here. -/
def stepMotorCall (env : Env) (s : St) : St × Except HomErr Unit :=
  if s.enabled = false then (s, .error .motorDisabled)
  else if env.cancelAt = some s.stepCalls then (s, .error .cancelled)
  else ({s with stepCalls := s.stepCalls + 1}, .ok ())

/-- The chunked seek loop (lines 74-78): while the sensor is inactive and
the step budget remains, step a chunk of at most 25.  Fuel bounds the
iteration count; `HOMING_MAX_STEPS` iterations always suffice since every
iteration consumes at least one step of budget. -/
def seekLoop (env : Env) : ℕ → ℕ → St → St × Except HomErr ℕ
  | 0, stepsTaken, s => (s, .ok stepsTaken)
  | fuel + 1, stepsTaken, s =>
      let r := readSensor env s
      if r.1 = false ∧ stepsTaken < HOMING_MAX_STEPS then
        let chunkSteps := min HOMING_CHUNK_STEPS (HOMING_MAX_STEPS - stepsTaken)
        match stepMotorCall env r.2 with
        | (s2, .error e) => (s2, .error e)
        | (s2, .ok ()) => seekLoop env fuel (stepsTaken + chunkSteps) s2
      else (r.2, .ok stepsTaken)

/-- The `seek_home(direction, max_steps, delay_ms)` inner loop (lines
95-102): single steps toward the sensor, checking before and after each
step.  Fuel is the remaining `max_steps - steps` budget. -/
def seekHomeLoop (env : Env) : ℕ → ℕ → St → St × Except HomErr ℕ
  | 0, steps, s => (s, .ok steps)
  | fuel + 1, steps, s =>
      let r := readSensor env s
      if r.1 = true then (r.2, .ok steps)
      else
        match stepMotorCall env r.2 with
        | (s2, .error e) => (s2, .error e)
        | (s2, .ok ()) =>
            let r2 := readSensor env s2
            if r2.1 = true then (r2.2, .ok (steps + 1))
            else seekHomeLoop env fuel (steps + 1) r2.2

/-- Function `seek_home` (lines 92-102): set the direction, then run the loop. -/
def seekHome (env : Env) (direction : ℤ) (maxSteps : ℕ) (s : St) :
    St × Except HomErr ℕ :=
  seekHomeLoop env maxSteps 0 {s with direction := direction}

/-- The refine/recovery tail of the try block (lines 104-155), entered
after the backoff move. -/
def refineAndRecover (env : Env) (s : St) : St × Except HomErr Unit :=
  match seekHome env (-1) HOMING_BACKOFF_STEPS s with
  | (s, .error e) => (s, .error e)
  | (s, .ok _) =>
    let r := readSensor env s
    let afterFallback : St × Except HomErr Unit :=
      if r.1 = false then
        match seekHome env 1 (HOMING_BACKOFF_STEPS * 2) r.2 with
        | (s2, .error e) => (s2, .error e)
        | (s2, .ok _) => (s2, .ok ())
      else (r.2, .ok ())
    match afterFallback with
    | (s, .error e) => (s, .error e)
    | (s, .ok ()) =>
      let r2 := readSensor env s
      if r2.1 = false then
        match seekHome env (-1) HOMING_MAX_STEPS r2.2 with
        | (s3, .error e) => (s3, .error e)
        | (s3, .ok _) =>
          let r3 := readSensor env s3
          let afterCw : St × Except HomErr Unit :=
            if r3.1 = false then
              match seekHome env 1 HOMING_MAX_STEPS r3.2 with
              | (s4, .error e) => (s4, .error e)
              | (s4, .ok _) => (s4, .ok ())
            else (r3.2, .ok ())
          match afterCw with
          | (s4, .error e) => (s4, .error e)
          | (s4, .ok ()) =>
            let r4 := readSensor env s4
            if r4.1 = false then (r4.2, .error .unrecoverable)
            else (r4.2, .ok ())
      else (r2.2, .ok ())

/-- The try block of `home_traversal_guide` (lines 72-179): optional seek
phase with its timeout check, then backoff and refine/recovery.  The final
diagnostic arithmetic and prints touch no motor state. -/
def homingBody (env : Env) (alreadyHome : Bool) (s : St) :
    St × Except HomErr Unit :=
  let afterSeek : St × Except HomErr Unit :=
    if alreadyHome = false then
      match seekLoop env HOMING_MAX_STEPS 0 s with
      | (s1, .error e) => (s1, .error e)
      | (s1, .ok _) =>
        let r := readSensor env s1
        if r.1 = false then (r.2, .error .timeout) else (r.2, .ok ())
    else (s, .ok ())
  match afterSeek with
  | (s1, .error e) => (s1, .error e)
  | (s1, .ok ()) =>
    let s2 := {s1 with direction := 1}
    match stepMotorCall env s2 with  -- the HOMING_BACKOFF_STEPS move
    | (s3, .error e) => (s3, .error e)
    | (s3, .ok ()) => refineAndRecover env s3

/-- Function `home_traversal_guide()` (lines 55-182): initial sensor read, enable,
try body, and the unconditional `finally: stepper.enabled = False`. -/
def home_traversal_guide (env : Env) : St × Except HomErr Unit :=
  let s0 : St := {reads := 0, stepCalls := 0, enabled := false, direction := 1}
  let r := readSensor env s0
  let s1 : St := {r.2 with enabled := true, direction := -1}
  let body := homingBody env r.1 s1
  ({body.1 with enabled := false}, body.2)

end Winder.Homing

namespace Winder.Calc

/-- Helper: the `winding_plan` loop terminates within the stated fuel for
nonnegative per-layer turn counts, covers the requested turns, and labels
every layer with the parity-determined turn count. -/
theorem windingPlanLoop_spec (w d : ℚ) (os es : ℤ) (hf : 0 ≤ ⌊w / d⌋) :
    ∀ (fuel : ℕ) (remaining : ℤ) (layer_num : ℕ),
      2 * remaining.toNat + (if layer_num % 2 = 1 then 1 else 2) ≤ fuel →
      ∃ l, windingPlanLoop w d os es fuel remaining layer_num = some l ∧
        remaining ≤ sumTurns l ∧
        ∀ x ∈ l, (x.1 % 2 = 1 → x.2.1 = ⌊w / d⌋ + 1) ∧
          (x.1 % 2 = 0 → x.2.1 = ⌊w / d⌋) := by
  intro fuel
  induction fuel with
  | zero =>
    intro remaining layer_num hfuel
    exfalso
    by_cases h : layer_num % 2 = 1 <;> simp [h] at hfuel
  | succ fuel ih =>
    intro remaining layer_num hfuel
    by_cases hr : remaining ≤ 0
    · refine ⟨[], ?_, ?_, ?_⟩
      · simp [windingPlanLoop, hr]
      · simpa [sumTurns] using hr
      · intro x hx; simp at hx
    · push_neg at hr
      by_cases hp : layer_num % 2 = 1
      · rw [if_pos hp] at hfuel
        have hnext : ¬((layer_num + 1) % 2 = 1) := by omega
        have hrec := ih (remaining - (⌊w / d⌋ + 1)) (layer_num + 1)
          (by rw [if_neg hnext]; omega)
        rcases hrec with ⟨rest, hrest, hsum, hmem⟩
        refine ⟨(layer_num, ⌊w / d⌋ + 1, os) :: rest, ?_, ?_, ?_⟩
        · simp [windingPlanLoop, hp, not_le.mpr hr, hrest]
        · simp only [sumTurns, List.map_cons, List.sum_cons] at hsum ⊢
          omega
        · intro x hx
          rcases List.mem_cons.mp hx with hx | hx
          · subst hx; exact ⟨fun _ => rfl, fun h0 => by omega⟩
          · exact hmem x hx
      · rw [if_neg hp] at hfuel
        have hnext : (layer_num + 1) % 2 = 1 := by omega
        have hrec := ih (remaining - ⌊w / d⌋) (layer_num + 1)
          (by rw [if_pos hnext]; omega)
        rcases hrec with ⟨rest, hrest, hsum, hmem⟩
        refine ⟨(layer_num, ⌊w / d⌋, es) :: rest, ?_, ?_, ?_⟩
        · simp [windingPlanLoop, hp, not_le.mpr hr, hrest]
        · simp only [sumTurns, List.map_cons, List.sum_cons] at hsum ⊢
          omega
        · intro x hx
          rcases List.mem_cons.mp hx with hx | hx
          · subst hx; exact ⟨fun h1 => by omega, fun _ => rfl⟩
          · exact hmem x hx

/-- C2: for every `total_turns > 0`, `spool_width_mm > 0` and
`wire_diameter_mm > 0`, `winding_plan` returns a plan whose turns sum to
at least `total_turns`, with `floor(spool_width/d) + 1` turns on every
odd-numbered layer and `floor(spool_width/d)` turns on every even-numbered
layer. -/
theorem winding_plan_turns_spec (total_turns : ℤ) (w d : ℚ)
    (ht : 0 < total_turns) (hw : 0 < w) (hd : 0 < d) :
    ∃ plan, winding_plan total_turns w d = .ok (some plan) ∧
      total_turns ≤ sumTurns plan ∧
      ∀ x ∈ plan, (x.1 % 2 = 1 → x.2.1 = ⌊w / d⌋ + 1) ∧
        (x.1 % 2 = 0 → x.2.1 = ⌊w / d⌋) := by
  have hd0 : d ≠ 0 := ne_of_gt hd
  have hf : 0 ≤ ⌊w / d⌋ := Int.floor_nonneg.mpr (le_of_lt (div_pos hw hd))
  obtain ⟨l, hl, hsum, hmem⟩ :=
    windingPlanLoop_spec w d
      (pyRound (((⌊w / d⌋ : ℚ) + 1) * (200 * (d / (5 / 4)))))
      (pyRound ((⌊w / d⌋ : ℚ) * (200 * (d / (5 / 4))))) hf
      (2 * total_turns.toNat + 2) total_turns 1 (by simp)
  refine ⟨l, ?_, hsum, hmem⟩
  simp [winding_plan, compute_layer_steps, pyFloorDiv, hd0, hl]

/-- C2 witness: the theorem applied at `total_turns = 3`,
`spool_width_mm = 2`, `wire_diameter_mm = 1`. -/
theorem winding_plan_turns_spec_witness :
    ∃ plan, winding_plan 3 2 1 = .ok (some plan) ∧
      3 ≤ sumTurns plan ∧
      ∀ x ∈ plan, (x.1 % 2 = 1 → x.2.1 = ⌊(2 : ℚ) / 1⌋ + 1) ∧
        (x.1 % 2 = 0 → x.2.1 = ⌊(2 : ℚ) / 1⌋) :=
  winding_plan_turns_spec 3 2 1 (by norm_num) (by norm_num) (by norm_num)

/-- C7 counterexample: at `total_turns = 1`, `spool_width_mm = 0`,
`wire_diameter_mm = 1` the plan operation does not fail at all — no
geometry validation exists — so the claim that `spool_width_mm ≤ 0` is
rejected with an `InvalidGeometry` error before producing a plan is false. -/
theorem winding_plan_zero_width_no_error :
    winding_plan 1 0 1 = .ok (some [(1, 1, 160)]) := by
  simp only [winding_plan, compute_layer_steps, pyFloorDiv, pyRound]
  norm_num [round_eq, windingPlanLoop, Int.toNat]

/-- Helper: when every layer's turn count is nonpositive
(`floor(w/d) + 1 ≤ 0`), `remaining` never decreases, so the plan loop
returns `none` at every fuel bound: the Python `while remaining > 0` loop
never terminates. -/
theorem windingPlanLoop_none (w d : ℚ) (os es : ℤ) (hneg : ⌊w / d⌋ + 1 ≤ 0) :
    ∀ (fuel : ℕ) (remaining : ℤ) (layer_num : ℕ), 0 < remaining →
      windingPlanLoop w d os es fuel remaining layer_num = none := by
  intro fuel
  induction fuel with
  | zero =>
    intro remaining layer_num hr
    simp only [windingPlanLoop, if_neg (not_le.mpr hr)]
  | succ fuel ih =>
    intro remaining layer_num hr
    simp only [windingPlanLoop, if_neg (not_le.mpr hr)]
    by_cases hp : layer_num % 2 = 1
    · rw [if_pos hp, ih (remaining - (⌊w / d⌋ + 1)) (layer_num + 1) (by omega)]
      rfl
    · rw [if_neg hp, ih (remaining - ⌊w / d⌋) (layer_num + 1) (by omega)]
      rfl

/-- C7 amended: `winding_plan` performs no geometry validation and raises
no `InvalidGeometry` error.  With `wire_diameter_mm = 0` it fails only
with Python's `ZeroDivisionError` (raised by the floor division in
`compute_layer_steps`, before any plan is produced); with
`spool_width_mm = 0` and a positive diameter it raises nothing and returns
a plan; and with a negative `spool_width_mm` and a positive diameter it
raises nothing either — every layer gets a nonpositive turn count, so the
layer loop never terminates (in the model: the loop is still running at
every fuel bound). -/
theorem winding_plan_geometry_behavior :
    (∀ (total_turns : ℤ) (w : ℚ),
        winding_plan total_turns w 0 = .error .zeroDivision) ∧
      winding_plan 1 0 1 = .ok (some [(1, 1, 160)]) ∧
      (∀ (total_turns : ℤ) (w d : ℚ), 0 < total_turns → w < 0 → 0 < d →
        winding_plan total_turns w d = .ok none ∧
        ∀ (os es : ℤ) (fuel : ℕ) (remaining : ℤ) (layer_num : ℕ),
          0 < remaining →
          windingPlanLoop w d os es fuel remaining layer_num = none) := by
  refine ⟨?_, ?_, ?_⟩
  · intro t w
    simp [winding_plan, compute_layer_steps, pyFloorDiv]
  · simp only [winding_plan, compute_layer_steps, pyFloorDiv, pyRound]
    norm_num [round_eq, windingPlanLoop, Int.toNat]
  · intro t w d ht hw hd
    have hd0 : d ≠ 0 := ne_of_gt hd
    have hneg : ⌊w / d⌋ + 1 ≤ 0 := by
      have hq : w / d < 0 := div_neg_of_neg_of_pos hw hd
      have : ¬(0 ≤ ⌊w / d⌋) := by
        rw [Int.floor_nonneg]
        exact not_le.mpr hq
      omega
    refine ⟨?_, fun os es => windingPlanLoop_none w d os es hneg⟩
    have hl := windingPlanLoop_none w d
      (pyRound (((⌊w / d⌋ : ℚ) + 1) * (200 * (d / (5 / 4)))))
      (pyRound ((⌊w / d⌋ : ℚ) * (200 * (d / (5 / 4))))) hneg
      (2 * t.toNat + 2) t 1 ht
    simp [winding_plan, compute_layer_steps, pyFloorDiv, hd0, hl]

/-- C7 witness: the amended theorem applied at concrete geometry — zero
diameter raises the division error, zero width yields a plan, and a width
of -1 with diameter 1 leaves the loop running at every fuel bound. -/
theorem winding_plan_geometry_behavior_witness :
    winding_plan 1 20 0 = .error .zeroDivision ∧
    winding_plan 1 0 1 = .ok (some [(1, 1, 160)]) ∧
    winding_plan 1 (-1) 1 = .ok none ∧
    windingPlanLoop (-1) 1 0 (-160) 5 1 1 = none := by
  obtain ⟨h1, h2, h3⟩ := winding_plan_geometry_behavior
  obtain ⟨h4, h5⟩ := h3 1 (-1) 1 (by norm_num) (by norm_num) (by norm_num)
  exact ⟨h1 1 20, h2, h4, h5 0 (-160) 5 1 1 (by norm_num)⟩

end Winder.Calc

namespace Winder.WindLayer

/-- Helper: the accepted-slot branch never touches the debounce timestamp. -/
theorem acceptSlot_lastIrqMs (targetSlots : ℕ) (s1 : EncSt) (nowMs : ℤ) :
    (acceptSlot targetSlots s1 nowMs).lastIrqMs = s1.lastIrqMs := by
  unfold acceptSlot
  dsimp only
  split_ifs <;> rfl

/-- Helper: the accepted-slot branch counts exactly one slot. -/
theorem acceptSlot_slotCount (targetSlots : ℕ) (s1 : EncSt) (nowMs : ℤ) :
    (acceptSlot targetSlots s1 nowMs).slotCount = s1.slotCount + 1 := by
  unfold acceptSlot
  dsimp only
  split_ifs <;> rfl

/-- C8: with `ENCODER_DEBOUNCE_MS = 3`, an edge within the debounce window
of the last accepted edge leaves the state untouched; a slot is counted
only on a transition into the active level; and an accepted active edge
followed by a second edge 1 ms later increments `slot_count` exactly
once (the second edge is ignored entirely). -/
theorem encoder_irq_debounce (targetSlots : ℕ) (s : EncSt) (t : ℤ) (lvl : ℕ) :
    (t - s.lastIrqMs < ENCODER_DEBOUNCE_MS → encoder_irq targetSlots s t lvl = s) ∧
    ((lvl ≠ ENCODER_ACTIVE_LEVEL ∨ s.inGap = true) →
      (encoder_irq targetSlots s t lvl).slotCount = s.slotCount) ∧
    (ENCODER_DEBOUNCE_MS ≤ t - s.lastIrqMs → s.inGap = false →
      ∀ lvl2 : ℕ,
        encoder_irq targetSlots (encoder_irq targetSlots s t ENCODER_ACTIVE_LEVEL)
            (t + 1) lvl2 = encoder_irq targetSlots s t ENCODER_ACTIVE_LEVEL ∧
        (encoder_irq targetSlots s t ENCODER_ACTIVE_LEVEL).slotCount
            = s.slotCount + 1) := by
  refine ⟨?_, ?_, ?_⟩
  · intro h
    simp [encoder_irq, h]
  · intro h
    unfold encoder_irq
    rcases h with h | h
    · split_ifs <;> simp_all
    · split_ifs <;> simp_all
  · intro ht hgap lvl2
    have hfirst : encoder_irq targetSlots s t ENCODER_ACTIVE_LEVEL
        = acceptSlot targetSlots {s with lastIrqMs := t} t := by
      unfold encoder_irq
      rw [if_neg (by omega)]
      simp [hgap]
    have hlast : (encoder_irq targetSlots s t ENCODER_ACTIVE_LEVEL).lastIrqMs = t := by
      rw [hfirst, acceptSlot_lastIrqMs]
    constructor
    · have key : ∀ s2 : EncSt, s2.lastIrqMs = t →
          encoder_irq targetSlots s2 (t + 1) lvl2 = s2 := by
        intro s2 h2
        unfold encoder_irq
        rw [if_pos (by rw [h2]; norm_num [ENCODER_DEBOUNCE_MS])]
      exact key _ hlast
    · rw [hfirst, acceptSlot_slotCount]

end Winder.WindLayer

namespace Winder.WindLayer

/-- C9 amended: each speed-control tick computes
`measured_cpm = (slot_delta * 1000 * 60) / (elapsed_ms * slots_per_rev)`,
forms `error = target_cpm - measured_cpm`, subtracts `int(error * Kp)` —
Python truncation toward zero, not `round` — from the duty, and clamps
the result into `[0, MAX_DUTY]`. -/
theorem speedControlTick_trunc_formula (targetCpm kp : ℚ) (slotsPerRev : ℕ)
    (duty slotDelta elapsedMs : ℤ) :
    speedControlTick targetCpm kp slotsPerRev duty slotDelta elapsedMs
        = clamp_duty_value (duty - pyTrunc ((targetCpm -
            ((slotDelta : ℚ) * 1000 * 60) / ((elapsedMs : ℚ) * (slotsPerRev : ℚ))) * kp)) ∧
      0 ≤ speedControlTick targetCpm kp slotsPerRev duty slotDelta elapsedMs ∧
      speedControlTick targetCpm kp slotsPerRev duty slotDelta elapsedMs ≤ MAX_DUTY := by
  refine ⟨?_, ?_, ?_⟩
  · simp only [speedControlTick]
    have he : (targetCpm - (slotDelta : ℚ) * 1000 / ((elapsedMs : ℚ) * (slotsPerRev : ℚ)) * 60) * kp
        = (targetCpm - (slotDelta : ℚ) * 1000 * 60 / ((elapsedMs : ℚ) * (slotsPerRev : ℚ))) * kp := by
      ring
    rw [he]
  · simp only [speedControlTick, clamp_duty_value]
    omega
  · simp only [speedControlTick, clamp_duty_value, MAX_DUTY]
    omega

/-- C9 counterexample: at `target_cpm = 76`, `Kp = 32.7675`,
`slots_per_rev = 20`, `duty = 30000`, `slot_delta = 1`,
`elapsed_ms = 200`, the code's tick (truncation) gives 28002, while the
claimed `round(error * Kp)` update would give 28001. -/
theorem speedControlTick_not_round :
    speedControlTick 76 (327675 / 10000) 20 30000 1 200 ≠
      speedControlTickSpecRound 76 (327675 / 10000) 20 30000 1 200 := by
  have hcode : speedControlTick 76 (327675 / 10000) 20 30000 1 200 = 28002 := by
    simp only [speedControlTick, pyTrunc, clamp_duty_value, MAX_DUTY]
    norm_num
  have hspec : speedControlTickSpecRound 76 (327675 / 10000) 20 30000 1 200 = 28001 := by
    simp only [speedControlTickSpecRound, clamp_duty_value, MAX_DUTY, round_eq]
    norm_num
  rw [hcode, hspec]
  norm_num

end Winder.WindLayer

namespace Winder.WindLayer

/-- Helper: one traversal-loop iteration never decreases `steps_moved`. -/
theorem traversalIter_mono (targetSlots firstLayerSteps : ℕ) (o : TravObs)
    (s : ℕ) : s ≤ traversalIter targetSlots firstLayerSteps o s := by
  simp only [traversalIter]
  split_ifs <;> omega

/-- Helper: one traversal-loop iteration keeps `steps_moved` at or below
the layer's step budget. -/
theorem traversalIter_le (targetSlots firstLayerSteps : ℕ) (o : TravObs)
    (s : ℕ) (hs : s ≤ firstLayerSteps) :
    traversalIter targetSlots firstLayerSteps o s ≤ firstLayerSteps := by
  simp only [traversalIter]
  set p : ℤ := pyTrunc ((((o.slotCount : ℚ) +
    (if o.running = true ∧ o.slotCount < targetSlots ∧
        0 < o.filteredIntervalMs ∧ 0 < o.elapsedSinceSlotMs then
      min ((o.elapsedSinceSlotMs : ℚ) / (o.filteredIntervalMs : ℚ)) (98 / 100)
    else 0)) * (firstLayerSteps : ℚ) / (targetSlots : ℚ))) with hp
  have hcap : (if (firstLayerSteps : ℤ) < p then (firstLayerSteps : ℤ) else p)
      ≤ (firstLayerSteps : ℤ) := by
    split_ifs with h
    · exact le_refl _
    · exact le_of_not_lt h
  set capped := if (firstLayerSteps : ℤ) < p then (firstLayerSteps : ℤ) else p with hc
  split_ifs with hdef
  · exact hs
  · push_neg at hdef
    have h4 : min (capped - (s : ℤ)).toNat (min 4 o.dueBudget)
        ≤ (capped - (s : ℤ)).toNat := Nat.min_le_left _ _
    omega

/-- Helper: starting from zero, any sequence of traversal-loop iterations
keeps `steps_moved` at or below the layer's step budget. -/
theorem traversalIter_foldl_le (targetSlots firstLayerSteps : ℕ)
    (obs : List TravObs) :
    obs.foldl (fun s o => traversalIter targetSlots firstLayerSteps o s) 0
      ≤ firstLayerSteps := by
  have key : ∀ (l : List TravObs) (s : ℕ), s ≤ firstLayerSteps →
      l.foldl (fun s o => traversalIter targetSlots firstLayerSteps o s) s
        ≤ firstLayerSteps := by
    intro l
    induction l with
    | nil => intro s hs; simpa using hs
    | cons o rest ih =>
      intro s hs
      exact ih _ (traversalIter_le targetSlots firstLayerSteps o s hs)
  exact key obs 0 (Nat.zero_le _)

/-- C1: the traversal control loop never decreases `steps_moved`, never
drives it above the layer's planned `target_steps` (`first_layer_steps`),
and an uninterrupted, fault-free pass — including the catch-up window and
the fallback blocking move — ends with `steps_moved = target_steps`
exactly. -/
theorem traversal_steps_invariants (targetSlots firstLayerSteps : ℕ) :
    (∀ (o : TravObs) (s : ℕ),
        s ≤ traversalIter targetSlots firstLayerSteps o s) ∧
    (∀ (o : TravObs) (s : ℕ), s ≤ firstLayerSteps →
        traversalIter targetSlots firstLayerSteps o s ≤ firstLayerSteps) ∧
    (∀ obs : List TravObs,
        obs.foldl (fun s o => traversalIter targetSlots firstLayerSteps o s) 0
          ≤ firstLayerSteps) ∧
    (∀ s : ℕ, s ≤ firstLayerSteps →
        traversalFallback firstLayerSteps s false false = firstLayerSteps) := by
  refine ⟨traversalIter_mono targetSlots firstLayerSteps,
    traversalIter_le targetSlots firstLayerSteps,
    traversalIter_foldl_le targetSlots firstLayerSteps, ?_⟩
  intro s hs
  simp only [traversalFallback]
  split_ifs with h
  · omega
  · have h2 : (firstLayerSteps : ℤ) - (s : ℤ) ≤ 0 := by
      by_contra hc
      exact h ⟨by omega, trivial, trivial⟩
    omega

end Winder.WindLayer

namespace Winder.WindLayer

/-- C1 witness: the invariants applied at a concrete observation with
`target_slots = 20`, `target_steps = 136`, `steps_moved = 5`. -/
theorem traversal_steps_invariants_witness :
    (5 ≤ traversalIter 20 136 sampleObs 5) ∧
    (traversalIter 20 136 sampleObs 5 ≤ 136) ∧
    ([sampleObs].foldl (fun s o => traversalIter 20 136 o s) 0 ≤ 136) ∧
    (traversalFallback 136 5 false false = 136) := by
  obtain ⟨h1, h2, h3, h4⟩ := traversal_steps_invariants 20 136
  exact ⟨h1 sampleObs 5, h2 sampleObs 5 (by norm_num), h3 [sampleObs],
    h4 5 (by norm_num)⟩

end Winder.WindLayer

namespace Winder.WindLayer

/-- Helper: the cleanup action sequence itself contains no re-raise. -/
theorem raiseExc_not_mem_core (o : PassOutcome) (tickDuties : List ℤ)
    (stepsMoved firstLayerSteps : ℕ) :
    DevAction.raiseExc ∉ windCleanupCore o tickDuties stepsMoved firstLayerSteps := by
  simp only [windCleanupCore, List.mem_append, List.mem_map, List.mem_cons,
    List.mem_singleton]
  split_ifs <;> simp

/-- Helper: folding the cleanup actions over any device state forces the
spindle duty to the motor-OFF level and disables the stepper. -/
theorem core_foldl_safe (o : PassOutcome) (tickDuties : List ℤ)
    (stepsMoved firstLayerSteps : ℕ) (d0 : SpindleDev) :
    ((windCleanupCore o tickDuties stepsMoved firstLayerSteps).foldl
        applyAction d0).duty = MAX_DUTY ∧
    ((windCleanupCore o tickDuties stepsMoved firstLayerSteps).foldl
        applyAction d0).stepperEnabled = false := by
  simp only [windCleanupCore, List.foldl_append]
  split_ifs <;> simp [applyAction]

/-- C5: however `wind_first_layer` terminates — normal completion,
cancellation, or a traversal-task fault — its cleanup runs: the spindle
PWM ends at the motor-OFF duty level, the traversal stepper driver ends
disabled, and any pending exception is re-raised only as the very last
action, after the cleanup. -/
theorem wind_first_layer_cleanup (o : PassOutcome) (tickDuties : List ℤ)
    (stepsMoved firstLayerSteps : ℕ) (d0 : SpindleDev) :
    ((wind_first_layer_trace o tickDuties stepsMoved firstLayerSteps).foldl
        applyAction d0).duty = MAX_DUTY ∧
    ((wind_first_layer_trace o tickDuties stepsMoved firstLayerSteps).foldl
        applyAction d0).stepperEnabled = false ∧
    (∀ a ∈ (wind_first_layer_trace o tickDuties stepsMoved
        firstLayerSteps).dropLast, a ≠ DevAction.raiseExc) ∧
    (o ≠ PassOutcome.normal →
      (wind_first_layer_trace o tickDuties stepsMoved
        firstLayerSteps).getLast? = some DevAction.raiseExc) := by
  have hcore := core_foldl_safe o tickDuties stepsMoved firstLayerSteps d0
  have hnomem := raiseExc_not_mem_core o tickDuties stepsMoved firstLayerSteps
  by_cases ho : o = PassOutcome.normal
  · refine ⟨?_, ?_, ?_, ?_⟩
    · simpa [wind_first_layer_trace, ho] using hcore.1
    · simpa [wind_first_layer_trace, ho] using hcore.2
    · intro a ha
      simp only [wind_first_layer_trace, ho, if_pos rfl, List.append_nil] at ha
      intro hraise
      exact hnomem (by simpa [ho, hraise] using List.dropLast_subset _ ha)
    · intro hcontra; exact absurd ho hcontra
  · refine ⟨?_, ?_, ?_, ?_⟩
    · simpa [wind_first_layer_trace, ho, List.foldl_append, applyAction]
        using hcore.1
    · simpa [wind_first_layer_trace, ho, List.foldl_append, applyAction]
        using hcore.2
    · intro a ha
      rw [wind_first_layer_trace, if_neg ho, List.dropLast_concat] at ha
      intro hraise
      exact hnomem (by simpa [hraise] using ha)
    · intro _
      rw [wind_first_layer_trace, if_neg ho, List.getLast?_concat]

end Winder.WindLayer

namespace Winder.WindLayer

/-- C5 witness: the cleanup theorem applied to a traversal-fault run with
`steps_moved = 10`, `first_layer_steps = 136` and one control tick. -/
theorem wind_first_layer_cleanup_witness :
    ((wind_first_layer_trace PassOutcome.travFault [60000] 10 136).foldl
        applyAction ⟨0, true, 0⟩).duty = MAX_DUTY ∧
    ((wind_first_layer_trace PassOutcome.travFault [60000] 10 136).foldl
        applyAction ⟨0, true, 0⟩).stepperEnabled = false ∧
    DevAction.irqDetach ≠ DevAction.raiseExc ∧
    (wind_first_layer_trace PassOutcome.travFault [60000] 10
      136).getLast? = some DevAction.raiseExc := by
  obtain ⟨h1, h2, h3, h4⟩ :=
    wind_first_layer_cleanup PassOutcome.travFault [60000] 10 136 ⟨0, true, 0⟩
  exact ⟨h1, h2, h3 DevAction.irqDetach (by decide), h4 (by decide)⟩

end Winder.WindLayer

namespace Winder.WireGuide

/-- Helper: draining a command list adds exactly the sum of the commands'
step magnitudes to `total_steps`. -/
theorem drainLoop_totalSteps (l : List Cmd) :
    ∀ m : MotorSt, (drainLoop l m).totalSteps = m.totalSteps + sumMagnitudes l := by
  induction l with
  | nil => intro m; simp [drainLoop, sumMagnitudes]
  | cons c rest ih =>
    intro m
    simp only [drainLoop, ih, stepRun, sumMagnitudes, List.map_cons, List.sum_cons]
    omega

/-- Helper: a nonempty drain leaves the queue empty. -/
theorem drainLoop_queue (l : List Cmd) :
    ∀ m : MotorSt, (drainLoop l m).queue = if l = [] then m.queue else [] := by
  induction l with
  | nil => intro m; simp [drainLoop]
  | cons c rest ih =>
    intro m
    simp only [drainLoop, ih, stepRun]
    by_cases h : rest = [] <;> simp [h]

/-- C3: `execute_all_queued` increases `total_steps` by exactly the sum of
the magnitudes of the drained commands, and calls `release()` (coil
de-energize) if and only if it drained something and the queue was
observed empty at both ends of the grace window. -/
theorem execute_all_queued_spec (m : MotorSt) (g1 g2 : List Cmd) :
    (execute_all_queued m g1 g2).1.totalSteps
        = m.totalSteps + sumMagnitudes m.queue ∧
    ((execute_all_queued m g1 g2).2 = true ↔
        (m.queue ≠ [] ∧ g1 = [] ∧ g2 = [])) := by
  by_cases hq : m.queue = []
  · constructor
    · simp [execute_all_queued, hq, sumMagnitudes]
    · simp [execute_all_queued, hq]
  · have hdq := drainLoop_queue m.queue {m with isExecuting := true}
    have hds := drainLoop_totalSteps m.queue {m with isExecuting := true}
    rw [if_neg hq] at hdq
    constructor
    · simp only [execute_all_queued, if_neg hq]
      by_cases h1 : g1 = []
      · by_cases h2 : g2 = [] <;>
          simp [hdq, hds, h1, h2, release]
      · simp [hdq, hds, h1]
    · simp only [execute_all_queued, if_neg hq]
      by_cases h1 : g1 = []
      · by_cases h2 : g2 = [] <;>
          simp [hdq, h1, h2, hq, release]
      · simp [hdq, h1, hq]

/-- Helper: `queue_step` on a full queue rejects and leaves it unchanged. -/
theorem queue_step_reject (q : List Cmd) (c : Cmd) (hq : q.length = 100) :
    queue_step q c = (false, q) := by
  simp [queue_step, hq]

/-- Helper: every queue operation preserves the capacity bound. -/
theorem applyQueueOp_preserves (q : List Cmd) (op : QueueOp)
    (hq : q.length ≤ 100) : (applyQueueOp q op).length ≤ 100 := by
  cases op with
  | enqueue c =>
    simp only [applyQueueOp, queue_step]
    split_ifs with h
    · exact hq
    · simp only [List.length_append, List.length_singleton]
      omega
  | executeOne =>
    simp only [applyQueueOp, List.length_drop]
    omega
  | executeAll => simp [applyQueueOp]
  | clearAll => simp [applyQueueOp]

/-- C4: under any sequence of `queue_step`, execute and clear operations
the command queue never exceeds 100 entries, and a `queue_step` call on a
queue already holding 100 commands returns `False` and leaves the queue
unchanged. -/
theorem queue_never_exceeds_capacity :
    (∀ ops : List QueueOp, (ops.foldl applyQueueOp []).length ≤ 100) ∧
    (∀ (q : List Cmd) (c : Cmd), q.length = 100 → queue_step q c = (false, q)) := by
  constructor
  · intro ops
    have key : ∀ (l : List QueueOp) (q : List Cmd), q.length ≤ 100 →
        (l.foldl applyQueueOp q).length ≤ 100 := by
      intro l
      induction l with
      | nil => intro q hq; simpa using hq
      | cons op rest ih =>
        intro q hq
        exact ih _ (applyQueueOp_preserves q op hq)
    exact key ops [] (by simp)
  · exact queue_step_reject

/-- C4 witness: the capacity theorem applied to a concrete operation
sequence and to a queue of exactly 100 commands. -/
theorem queue_never_exceeds_capacity_witness :
    (([QueueOp.enqueue sampleCmd, QueueOp.executeOne,
        QueueOp.clearAll].foldl applyQueueOp []).length ≤ 100) ∧
    queue_step (List.replicate 100 sampleCmd) sampleCmd
      = (false, List.replicate 100 sampleCmd) := by
  obtain ⟨h1, h2⟩ := queue_never_exceeds_capacity
  exact ⟨h1 [QueueOp.enqueue sampleCmd, QueueOp.executeOne, QueueOp.clearAll],
    h2 (List.replicate 100 sampleCmd) sampleCmd (by simp)⟩

end Winder.WireGuide

namespace Winder.Homing

/-- C6: every homing run — success, seek-budget timeout, refine/recovery
failure, or an injected interrupt — ends with the traversal stepper
driver disabled. -/
theorem home_traversal_guide_disables (env : Env) :
    (home_traversal_guide env).1.enabled = false := by
  simp [home_traversal_guide]

end Winder.Homing

namespace Winder.Nema17

/-- C10: `NEMA17Stepper.step_motor` raises before emitting any pulse when
the driver is disabled, returns without pulsing when `steps <= 0`, and
emits a pulse only when the driver is enabled and `steps > 0`. -/
theorem step_motor_guard (enabled : Bool) (steps : ℤ) :
    (enabled = false → step_motor enabled steps = .error "Motor is not enabled") ∧
    (enabled = true → steps ≤ 0 → step_motor enabled steps = .ok 0) ∧
    (∀ n : ℕ, step_motor enabled steps = .ok n → 0 < n →
      enabled = true ∧ 0 < steps) := by
  refine ⟨?_, ?_, ?_⟩
  · intro h
    simp [step_motor, h]
  · intro he hs
    simp [step_motor, he, hs]
  · intro n hok hn
    cases enabled with
    | false => simp [step_motor] at hok
    | true =>
      refine ⟨rfl, ?_⟩
      by_contra hs
      push_neg at hs
      simp [step_motor, hs] at hok
      omega

/-- C10 witness: the guard theorem applied at `enabled = false, steps = 5`,
at `enabled = true, steps = 0`, and at `enabled = true, steps = 7`. -/
theorem step_motor_guard_witness :
    step_motor false 5 = .error "Motor is not enabled" ∧
    step_motor true 0 = .ok 0 ∧
    (true = true ∧ (0 : ℤ) < 7) := by
  refine ⟨(step_motor_guard false 5).1 rfl, (step_motor_guard true 0).2.1 rfl (by norm_num), ?_⟩
  exact (step_motor_guard true 7).2.2 7 (by simp [step_motor]) (by norm_num)

end Winder.Nema17

namespace Winder.WindLayer

/-- C8 witness: the debounce theorem applied at concrete edges — an edge
1 ms after the last accepted edge is ignored, a non-active edge counts
nothing, and an accepted active edge followed 1 ms later by any edge
counts exactly one slot. -/
theorem encoder_irq_debounce_witness :
    encoder_irq 60 sampleEnc 1 0 = sampleEnc ∧
    (encoder_irq 60 sampleEnc 10 1).slotCount = sampleEnc.slotCount ∧
    (encoder_irq 60 (encoder_irq 60 sampleEnc 10 ENCODER_ACTIVE_LEVEL)
        (10 + 1) 1 = encoder_irq 60 sampleEnc 10 ENCODER_ACTIVE_LEVEL ∧
      (encoder_irq 60 sampleEnc 10 ENCODER_ACTIVE_LEVEL).slotCount
        = sampleEnc.slotCount + 1) := by
  refine ⟨(encoder_irq_debounce 60 sampleEnc 1 0).1
      (by norm_num [sampleEnc, ENCODER_DEBOUNCE_MS]),
    (encoder_irq_debounce 60 sampleEnc 10 1).2.1
      (Or.inl (by norm_num [ENCODER_ACTIVE_LEVEL])),
    (encoder_irq_debounce 60 sampleEnc 10 1).2.2
      (by norm_num [sampleEnc, ENCODER_DEBOUNCE_MS]) (by simp [sampleEnc]) 1⟩

end Winder.WindLayer
